import Mathlib

/-
  Shallow embedding of the TimescaleDB GPU-bridge core
  (gpu_dispatch.c, cost_model.c, arrow_kds.c, gpu_bridge.c).

  Modelling conventions:
  * C `double` values are modelled as exact rationals (the claims are
    about the arithmetic structure of the cost model, not IEEE rounding).
  * C `int` is modelled as `Int`; claims that depend on the 32-bit range
    carry explicit bounds.  `size_t` arithmetic is modelled as `Nat`
    with explicit reduction modulo 2^64 where the source multiplies.
  * Function pointers from the late-bound PG-Strom API are modelled as
    `Option` functions: `none` is a NULL pointer.
  * Byte buffers are `List Nat` (each entry one byte value).  A C
    `double` that is only ever memcpy-ed is carried as its 8-byte
    little-endian representation, never interpreted.
-/

/-- Subset of PostgreSQL expression nodes handled by the bridge
    (gpu_dispatch.c / cost_model.c switch statements).  `other` stands
    for every node tag outside the handled cases.  Aggregate arguments
    are TargetEntry-wrapped in C; the wrapper is transparent here. -/
inductive PgExpr where
  | const : PgExpr
  | varRef : PgExpr
  | funcExpr (funcid : Nat) (args : List PgExpr) : PgExpr
  | opExpr (opfuncid : Nat) (args : List PgExpr) : PgExpr
  | aggref (args : List PgExpr) (aggfilter : Option PgExpr) : PgExpr
  | other : PgExpr
deriving Repr

/-- The four late-bound PG-Strom entry points (gpu_bridge.h / part_007).
    `none` models a NULL function pointer.  `xpu_command` is modelled by
    the return code its invocation would produce for the dispatch at
    hand. -/
structure StromAPI where
  xpu_command : Option Int
  device_func_lookup : Option (Nat → Int)
  opcode_cost : Option (Int → ℚ)
  gpu_parallelism : Option Int

/-- Module-global state of the bridge: the enabled flag, the resolved
    API, the three GUC tunables, and the calibration scalars
    (gpu_bridge.c globals and cost_model.c statics). -/
structure BridgeState where
  gpu_bridge_enabled : Bool
  strom_api : StromAPI
  gpu_transfer_cost_per_byte : ℚ
  gpu_launch_overhead : ℚ
  gpu_min_batch_rows : Int
  calibration_done : Bool
  calibrated_transfer_cost : ℚ
  calibrated_launch_overhead : ℚ

/- ---------------------------------------------------------------
   gpu_dispatch.c : eligibility
   --------------------------------------------------------------- -/

mutual

/-- gpu_dispatch.c, gpu_expr_is_eligible: Const/Var are eligible;
    FuncExpr/OpExpr need a positive opcode from the registry and
    eligible arguments; Aggref is checked through its arguments and
    optional filter only; anything else is ineligible.  The global
    guard (bridge disabled or NULL lookup pointer) is re-checked on
    every call, as in the source. -/
def gpu_expr_is_eligible (enabled : Bool) (lookup : Option (Nat → Int)) :
    PgExpr → Bool
  | .const =>
      if !enabled || lookup.isNone then false else true
  | .varRef =>
      if !enabled || lookup.isNone then false else true
  | .funcExpr funcid args =>
      if !enabled || lookup.isNone then false
      else
        match lookup with
        | none => false
        | some lk =>
            if lk funcid ≤ 0 then false
            else gpu_expr_list_is_eligible enabled lookup args
  | .opExpr opfuncid args =>
      if !enabled || lookup.isNone then false
      else
        match lookup with
        | none => false
        | some lk =>
            if lk opfuncid ≤ 0 then false
            else gpu_expr_list_is_eligible enabled lookup args
  | .aggref args aggfilter =>
      if !enabled || lookup.isNone then false
      else
        if gpu_expr_list_is_eligible enabled lookup args = false then false
        else
          match aggfilter with
          | none => true
          | some f => gpu_expr_is_eligible enabled lookup f
  | .other =>
      if !enabled || lookup.isNone then false else false

/-- The `foreach` loop over an argument list in gpu_expr_is_eligible:
    false as soon as one element is ineligible. -/
def gpu_expr_list_is_eligible (enabled : Bool) (lookup : Option (Nat → Int)) :
    List PgExpr → Bool
  | [] => true
  | e :: es =>
      if gpu_expr_is_eligible enabled lookup e = false then false
      else gpu_expr_list_is_eligible enabled lookup es

end

/-- gpu_dispatch.c, gpu_check_eligibility: disabled or empty list is
    ineligible; otherwise the conjunction over the expression list. -/
def gpu_check_eligibility (enabled : Bool) (lookup : Option (Nat → Int))
    (agg_exprs : List PgExpr) : Bool :=
  if enabled = false then false
  else if agg_exprs.isEmpty then false
  else gpu_expr_list_is_eligible enabled lookup agg_exprs

/- ---------------------------------------------------------------
   cost_model.c : opcode cost sum and estimate
   --------------------------------------------------------------- -/

mutual

/-- cost_model.c, gpu_sum_opcode_costs: 0 when the bridge is disabled
    or either registry pointer is NULL; Const/Var contribute 0;
    FuncExpr/OpExpr contribute the opcode cost (when the opcode is
    positive) plus the sum over arguments; Aggref sums over its
    arguments only (the filter clause is NOT descended into); any
    other node contributes 0. -/
def gpu_sum_opcode_costs (enabled : Bool) (lookup : Option (Nat → Int))
    (ocost : Option (Int → ℚ)) : PgExpr → ℚ
  | .const =>
      if !enabled || lookup.isNone || ocost.isNone then 0 else 0
  | .varRef =>
      if !enabled || lookup.isNone || ocost.isNone then 0 else 0
  | .funcExpr funcid args =>
      if !enabled || lookup.isNone || ocost.isNone then 0
      else
        match lookup, ocost with
        | some lk, some oc =>
            (if 0 < lk funcid then oc (lk funcid) else 0) +
              gpu_sum_opcode_costs_list enabled lookup ocost args
        | _, _ => 0
  | .opExpr opfuncid args =>
      if !enabled || lookup.isNone || ocost.isNone then 0
      else
        match lookup, ocost with
        | some lk, some oc =>
            (if 0 < lk opfuncid then oc (lk opfuncid) else 0) +
              gpu_sum_opcode_costs_list enabled lookup ocost args
        | _, _ => 0
  | .aggref args _aggfilter =>
      if !enabled || lookup.isNone || ocost.isNone then 0
      else gpu_sum_opcode_costs_list enabled lookup ocost args
  | .other =>
      if !enabled || lookup.isNone || ocost.isNone then 0 else 0

/-- The `foreach` accumulation over an argument list in
    gpu_sum_opcode_costs. -/
def gpu_sum_opcode_costs_list (enabled : Bool) (lookup : Option (Nat → Int))
    (ocost : Option (Int → ℚ)) : List PgExpr → ℚ
  | [] => 0
  | e :: es =>
      gpu_sum_opcode_costs enabled lookup ocost e +
        gpu_sum_opcode_costs_list enabled lookup ocost es

end

/-- cost_model.c default for transfer cost (0.0001, taken at its
    decimal value in the rational model). -/
def DEFAULT_TRANSFER_COST_PER_BYTE : ℚ := 1 / 10000

/-- cost_model.c default for launch overhead. -/
def DEFAULT_LAUNCH_OVERHEAD : ℚ := 100

/-- cost_model.c default for GPU parallelism. -/
def DEFAULT_GPU_PARALLELISM : Int := 1024

/-- cost_model.c, effective_transfer_cost: user GUC if strictly
    positive, else calibrated value if calibration is done and the
    value is strictly positive, else the default. -/
def effective_transfer_cost (s : BridgeState) : ℚ :=
  if 0 < s.gpu_transfer_cost_per_byte then s.gpu_transfer_cost_per_byte
  else if s.calibration_done && decide (0 < s.calibrated_transfer_cost) then
    s.calibrated_transfer_cost
  else DEFAULT_TRANSFER_COST_PER_BYTE

/-- cost_model.c, effective_launch_overhead: same resolution order as
    the transfer cost. -/
def effective_launch_overhead (s : BridgeState) : ℚ :=
  if 0 < s.gpu_launch_overhead then s.gpu_launch_overhead
  else if s.calibration_done && decide (0 < s.calibrated_launch_overhead) then
    s.calibrated_launch_overhead
  else DEFAULT_LAUNCH_OVERHEAD

/-- cost_model.c, effective_gpu_parallelism: the accelerator-reported
    width when the bridge is enabled, the pointer is resolved, and the
    reported value is positive; otherwise the default. -/
def effective_gpu_parallelism (s : BridgeState) : Int :=
  match s.gpu_bridge_enabled, s.strom_api.gpu_parallelism with
  | true, some p => if 0 < p then p else DEFAULT_GPU_PARALLELISM
  | _, _ => DEFAULT_GPU_PARALLELISM

/-- Result record of gpu_estimate_cost (cost_model.h GpuCostEstimate).
    The `= {0}` initializer of the source zeroes every field. -/
structure GpuCostEstimate where
  total_cost : ℚ
  transfer_cost : ℚ
  launch_cost : ℚ
  compute_cost : ℚ
  is_valid : Bool
deriving Repr

/-- The all-zero GpuCostEstimate produced by `GpuCostEstimate est = {0}`. -/
def zeroEstimate : GpuCostEstimate :=
  { total_cost := 0, transfer_cost := 0, launch_cost := 0,
    compute_cost := 0, is_valid := false }

/-- cost_model.c line `(size_t) nrows * row_width * 2`: size_t
    multiplication modulo 2^64, with the C int `row_width` converted to
    size_t (two-complement), under the guard `nrows > 0`. -/
def transfer_bytes_c (nrows row_width : Int) : Nat :=
  ((nrows.toNat * ((row_width % (2 ^ 64 : Int)).toNat)) % 2 ^ 64) * 2 % 2 ^ 64

/-- cost_model.c, gpu_estimate_cost: invalid when the bridge is
    disabled or nrows ≤ 0; invalid when the min-batch-rows GUC is
    positive and nrows is below it; invalid when the opcode-cost sum
    over the expression list is ≤ 0; otherwise the bidirectional
    transfer cost plus launch overhead plus parallelism-divided compute
    cost. -/
def gpu_estimate_cost (s : BridgeState) (agg_exprs : List PgExpr)
    (nrows row_width : Int) : GpuCostEstimate :=
  if !s.gpu_bridge_enabled || decide (nrows ≤ 0) then zeroEstimate
  else if decide (0 < s.gpu_min_batch_rows) &&
          decide (nrows < s.gpu_min_batch_rows) then zeroEstimate
  else
    let opcode_cost_sum :=
      gpu_sum_opcode_costs_list s.gpu_bridge_enabled
        s.strom_api.device_func_lookup s.strom_api.opcode_cost agg_exprs
    if opcode_cost_sum ≤ 0 then zeroEstimate
    else
      let tb : ℚ := (transfer_bytes_c nrows row_width : ℚ)
      let transfer_cost := tb * effective_transfer_cost s
      let launch_cost := effective_launch_overhead s
      let parallelism := effective_gpu_parallelism s
      let compute_cost := (nrows : ℚ) * opcode_cost_sum / (parallelism : ℚ)
      { total_cost := transfer_cost + launch_cost + compute_cost,
        transfer_cost := transfer_cost,
        launch_cost := launch_cost,
        compute_cost := compute_cost,
        is_valid := true }

/-- cost_model.c, gpu_calibrate_transfer_cost: no-op when no bytes were
    transferred or elapsed time is non-positive; otherwise store
    elapsed/bytes and mark calibration done. -/
def gpu_calibrate_transfer_cost (s : BridgeState) (bytes_transferred : Nat)
    (elapsed_us : ℚ) : BridgeState :=
  if bytes_transferred = 0 ∨ elapsed_us ≤ 0 then s
  else
    { s with
      calibrated_transfer_cost := elapsed_us / (bytes_transferred : ℚ),
      calibration_done := true }

/-- cost_model.c, gpu_calibrate_launch_overhead: store
    elapsed − compute, replaced by 1.0 when that difference is ≤ 0, and
    mark calibration done. -/
def gpu_calibrate_launch_overhead (s : BridgeState) (elapsed_us : ℚ)
    (compute_cost : ℚ) : BridgeState :=
  { s with
    calibrated_launch_overhead :=
      if elapsed_us - compute_cost ≤ 0 then 1 else elapsed_us - compute_cost,
    calibration_done := true }

/-- gpu_dispatch.c, gpu_dispatch_batch: false (CPU fallback) when the
    bridge is disabled or the xpu_command pointer is NULL; otherwise
    invoke the entry point and return true exactly on a zero return
    code.  The entry point is modelled by the return code its
    invocation yields. -/
def gpu_dispatch_batch (enabled : Bool) (xpu_command : Option Int) : Bool :=
  if !enabled || xpu_command.isNone then false
  else
    match xpu_command with
    | none => false
    | some rc => if rc ≠ 0 then false else true

/- ---------------------------------------------------------------
   arrow_kds.c : Arrow to KDS transcoding
   --------------------------------------------------------------- -/

/-- PostgreSQL MAXALIGN on the target platform: round up to the
    platform maximum alignment, 8 bytes (MAXIMUM_ALIGNOF = 8 on
    x86-64). -/
def MAXALIGN (x : Nat) : Nat := (x + 7) / 8 * 8

/-- arrow_kds.c, validity_bitmap_bytes:
    MAXALIGN(((nrows + 63) / 64) * sizeof(uint64)). -/
def validity_bitmap_bytes (nrows : Nat) : Nat :=
  MAXALIGN ((nrows + 63) / 64 * 8)

/-- arrow_kds.c, fixed_column_bytes: bitmap plus aligned data run. -/
def fixed_column_bytes (nrows typlen : Nat) : Nat :=
  validity_bitmap_bytes nrows + MAXALIGN (nrows * typlen)

/-- arrow_kds.c constant XPU_GEOM_POINT_Z_SIZE: the sizing estimate of
    one serialized POINT Z value. -/
def XPU_GEOM_POINT_Z_SIZE : Nat := 48

/-- arrow_kds.c, geometry_column_bytes: bitmap plus aligned offset
    array of nrows 4-byte entries plus aligned payload of nrows
    48-byte sizing units. -/
def geometry_column_bytes (nrows : Nat) : Nat :=
  validity_bitmap_bytes nrows +
    MAXALIGN (nrows * 4) +
    MAXALIGN (nrows * XPU_GEOM_POINT_Z_SIZE)

/-- The sizing formula the specification states for a geometry column:
    bitmap plus max_align((nrows + 1) × 4) plus max_align(nrows × 48).
    Written from the words of the spec, for comparison with
    geometry_column_bytes above. -/
def geometry_column_bytes_spec (nrows : Nat) : Nat :=
  validity_bitmap_bytes nrows +
    MAXALIGN ((nrows + 1) * 4) +
    MAXALIGN (nrows * XPU_GEOM_POINT_Z_SIZE)

/-- Little-endian byte split of a 16-bit store (memcpy of a uint16). -/
def le16 (v : Nat) : List Nat :=
  [v % 256, v / 256 % 256]

/-- Little-endian byte split of a 32-bit store (memcpy of an
    int32/uint32; a negative int32 is stored two-complement). -/
def le32 (v : Int) : List Nat :=
  [((v % (2 ^ 32 : Int)).toNat) % 256,
   ((v % (2 ^ 32 : Int)).toNat) / 256 % 256,
   ((v % (2 ^ 32 : Int)).toNat) / 2 ^ 16 % 256,
   ((v % (2 ^ 32 : Int)).toNat) / 2 ^ 24 % 256]

/-- arrow_kds.c, build_xpu_geometry_header: emits, in order, the 4-byte
    type code (POINTTYPE = 1), the 2-byte flags (GEOM_FLAG_Z = 0x01),
    2 bytes of padding (left as the zero bytes of the zero-initialized
    buffer), the 4-byte srid, the 4-byte nitems (1), the 4-byte rawsize
    (3 * sizeof(double) = 24), then the three coordinates.  A
    coordinate is carried as its memcpy-ed 8-byte representation.
    Returns the emitted block together with the byte count the C
    function returns. -/
def build_xpu_geometry_header (srid : Int) (x y z : List Nat) :
    List Nat × Nat :=
  let block :=
    le32 1 ++ le16 1 ++ [0, 0] ++ le32 srid ++ le32 1 ++ le32 24 ++
      x ++ y ++ z
  (block, 4 + 2 + 2 + 4 + 4 + 4 + 8 + 8 + 8)

/-- One Arrow variable-length (geometry) array: optional validity
    words (buffers[0], 64-bit words), optional offsets (buffers[1],
    uint32 entries), optional payload bytes (buffers[2]). -/
structure ArrowGeomArray where
  validity : Option (List Nat)
  offs : Option (List Nat)
  data : Option (List Nat)

/-- The validity test of the geometry loop in convert_geometry_column:
    a row is processed when buffers[0] is NULL or bit i is set
    ((validity[i / 64] >> (i % 64)) & 1). -/
def geom_row_valid (validity : Option (List Nat)) (i : Nat) : Bool :=
  match validity with
  | none => true
  | some words => (words.getD (i / 64) 0) >>> (i % 64) % 2 = 1

/-- The body of the geometry loop for row i: emits nothing (and
    advances the cursor by 0) when the row is null, when either Arrow
    buffer is NULL, or when the WKB record is shorter than 29 bytes;
    otherwise the block produced by build_xpu_geometry_header from the
    three doubles at WKB offsets 5, 13, 21, with the fixed SRID 4978,
    paired with the byte count that function returns (by which the C
    loop advances the cursor). -/
def geom_row_out (arr : ArrowGeomArray) (i : Nat) : List Nat × Nat :=
  if geom_row_valid arr.validity i = false then ([], 0)
  else
    match arr.offs, arr.data with
    | some offs, some data =>
        let wkb_start := offs.getD i 0
        let wkb_len := offs.getD (i + 1) 0 - wkb_start
        if 29 ≤ wkb_len then
          let wkb := data.drop wkb_start
          build_xpu_geometry_header 4978
            ((wkb.drop 5).take 8) ((wkb.drop 13).take 8)
            ((wkb.drop 21).take 8)
        else ([], 0)
    | _, _ => ([], 0)

/-- The loop of convert_geometry_column, indexed by the number of rows
    still to process (`remaining = nrows - i`): emits the current
    cursor as offsets[i] before each row, advances the cursor by the
    count returned from build_xpu_geometry_header, and closes the array
    with offsets[nrows] = final cursor.  Returns the offset entries
    (remaining + 1 of them) and the payload bytes laid down from the
    cursor on. -/
def geom_loop (arr : ArrowGeomArray) (i : Nat) :
    Nat → Nat → List Nat × List Nat
  | 0, cursor => ([cursor], [])
  | remaining + 1, cursor =>
      let b := geom_row_out arr i
      let rest := geom_loop arr (i + 1) remaining (cursor + b.2)
      (cursor :: rest.1, b.1 ++ rest.2)

/-- arrow_kds.c, convert_geometry_column, offsets-and-payload part:
    the offset array (nrows + 1 uint32 entries) and the payload region
    produced by the row loop starting at row 0, cursor 0. -/
def convert_geometry_column (arr : ArrowGeomArray) (nrows : Nat) :
    List Nat × List Nat :=
  geom_loop arr 0 nrows 0

/-- arrow_kds.c, copy_validity_bitmap, on 64-bit words: with no Arrow
    validity buffer, fill bitmap_len bytes with 0xFF and mask the word
    at index nrows / 64 down to the low nrows mod 64 bits when nrows is
    not a multiple of 64; with an Arrow validity buffer, memcpy
    bitmap_len bytes from it verbatim (the source buffer is assumed to
    hold at least bitmap_len bytes, per the Arrow contract). -/
def copy_validity_bitmap (arrow_validity : Option (List Nat))
    (nrows : Nat) : List Nat :=
  let nwords := validity_bitmap_bytes nrows / 8
  match arrow_validity with
  | none =>
      let filled := List.replicate nwords (2 ^ 64 - 1)
      if nrows % 64 ≠ 0 then
        filled.set (nrows / 64)
          ((filled.getD (nrows / 64) 0) &&& (2 ^ (nrows % 64) - 1))
      else filled
  | some v => v.take nwords

/-- Little-endian read of one 8-byte Datum at the head of a byte
    buffer (sizeof(Datum) = 8 on the target platform). -/
def read_le64 (buf : List Nat) : Nat :=
  buf.getD 0 0 + 2 ^ 8 * buf.getD 1 0 + 2 ^ 16 * buf.getD 2 0 +
    2 ^ 24 * buf.getD 3 0 + 2 ^ 32 * buf.getD 4 0 + 2 ^ 40 * buf.getD 5 0 +
    2 ^ 48 * buf.getD 6 0 + 2 ^ 56 * buf.getD 7 0

/-- Little-endian byte split of one 8-byte Datum value. -/
def le64 (v : Nat) : List Nat :=
  [v % 256, v / 2 ^ 8 % 256, v / 2 ^ 16 % 256, v / 2 ^ 24 % 256,
   v / 2 ^ 32 % 256, v / 2 ^ 40 % 256, v / 2 ^ 48 % 256, v / 2 ^ 56 % 256]

/-- The copy loop `out_values[i] = values[i]`: k Datum-sized words read
    from the head of the buffer. -/
def read_words (buf : List Nat) : Nat → List Nat
  | 0 => []
  | k + 1 => read_le64 buf :: read_words (buf.drop 8) k

/-- The copy loop `out_nulls[i] = nulls[i]`: k one-byte bools
    (sizeof(bool) = 1), any nonzero byte reading as true. -/
def read_flags (buf : List Nat) : Nat → List Bool
  | 0 => []
  | k + 1 => decide (buf.getD 0 0 ≠ 0) :: read_flags (buf.drop 1) k

/-- arrow_kds.c, kds_result_to_partial_agg: with a NULL result buffer
    or result_len below num_aggs * (sizeof(Datum) + sizeof(bool)),
    every output value is zeroed and every null flag set; otherwise the
    num_aggs-element Datum array at the head of the buffer and the
    num_aggs-element bool array right after it are copied out. -/
def kds_result_to_partial_agg (result_buf : Option (List Nat))
    (result_len num_aggs : Nat) : List Nat × List Bool :=
  if result_buf.isNone || decide (result_len < num_aggs * (8 + 1)) then
    (List.replicate num_aggs 0, List.replicate num_aggs true)
  else
    match result_buf with
    | none => (List.replicate num_aggs 0, List.replicate num_aggs true)
    | some buf =>
        (read_words buf num_aggs, read_flags (buf.drop (8 * num_aggs)) num_aggs)

/- ---------------------------------------------------------------
   Auxiliary predicates and concrete fixtures
   --------------------------------------------------------------- -/

/-- The spec invariant on a validity bitmap: the bits at positions
    nrows mod 64 and above in the word holding row nrows are zero
    (equivalently that word is below 2 ^ (nrows mod 64)); vacuous when
    nrows is a multiple of 64 and every word is fully used. -/
def trailing_bits_zero (words : List Nat) (nrows : Nat) : Prop :=
  nrows % 64 ≠ 0 → words.getD (nrows / 64) 0 < 2 ^ (nrows % 64)

mutual

/-- True when every function/operator application of the expression
    lies inside some aggregate filter clause: constants, column
    references and unhandled nodes carry no application; a bare
    application fails; an aggregate constrains only its arguments,
    leaving its filter clause unconstrained. -/
def no_app_outside_filter : PgExpr → Bool
  | .const => true
  | .varRef => true
  | .funcExpr _ _ => false
  | .opExpr _ _ => false
  | .aggref args _ => no_app_outside_filter_list args
  | .other => true

/-- Pointwise version of no_app_outside_filter for argument lists. -/
def no_app_outside_filter_list : List PgExpr → Bool
  | [] => true
  | e :: es => no_app_outside_filter e && no_app_outside_filter_list es

end

/-- One-byte store of a C bool. -/
def boolByte (b : Bool) : Nat := if b then 1 else 0

/-- A fully resolved PG-Strom API: submit succeeds, every function has
    opcode 1, every opcode costs 1, parallelism 1024. -/
def apiFull : StromAPI :=
  { xpu_command := some 0,
    device_func_lookup := some (fun _ => 1),
    opcode_cost := some (fun _ => 1),
    gpu_parallelism := some 1024 }

/-- An enabled bridge with default tunables except min_batch_rows set
    to 5000, before any calibration. -/
def sFav : BridgeState :=
  { gpu_bridge_enabled := true,
    strom_api := apiFull,
    gpu_transfer_cost_per_byte := 0,
    gpu_launch_overhead := 0,
    gpu_min_batch_rows := 5000,
    calibration_done := false,
    calibrated_transfer_cost := 0,
    calibrated_launch_overhead := 0 }

/-- A batch of favorable aggregate expressions: one function
    application, giving an opcode-cost sum of 1 under apiFull. -/
def favExprs : List PgExpr := [PgExpr.funcExpr 1 []]

/-- A batch whose only function application sits inside an aggregate
    filter clause. -/
def filterOnlyBatch : List PgExpr :=
  [PgExpr.aggref [PgExpr.varRef]
    (some (PgExpr.opExpr 7 [PgExpr.varRef, PgExpr.const]))]

/-- IEEE-754 little-endian bytes of the double 1.0. -/
def d1 : List Nat := [0, 0, 0, 0, 0, 0, 240, 63]

/-- IEEE-754 little-endian bytes of the double 0.0. -/
def d0 : List Nat := [0, 0, 0, 0, 0, 0, 0, 0]

/-- A 29-byte WKB POINT Z record: 1 byte of byte order (little-endian),
    4 bytes of geometry type (ISO code 1001 for POINT Z), then the
    three coordinate doubles. -/
def wkb_point_z (xb yb zb : List Nat) : List Nat :=
  [1, 233, 3, 0, 0] ++ xb ++ yb ++ zb

/-- The three-row geometry Arrow array of scenario S2: no validity
    buffer, rows (1,0,0), (0,1,0), (0,0,1), each a 29-byte WKB
    record. -/
def arrowGeom3 : ArrowGeomArray :=
  { validity := none,
    offs := some [0, 29, 58, 87],
    data := some (wkb_point_z d1 d0 d0 ++ wkb_point_z d0 d1 d0 ++
      wkb_point_z d0 d0 d1) }

/- ---------------------------------------------------------------
   Theorems
   --------------------------------------------------------------- -/

/-- Claim C8: gpu_dispatch_batch returns fallback (false) immediately
    when the bridge is disabled or the accelerator entry point is
    null, returns fallback when the invoked accelerator entry returns
    a nonzero code, and returns ok (true) exactly when the entry
    returns zero. -/
theorem C8_dispatch_ok_iff_zero_rc :
    ∀ (enabled : Bool) (cmd : Option Int),
      (gpu_dispatch_batch enabled cmd = true ↔
        enabled = true ∧ cmd = some 0) ∧
      (enabled = false ∨ cmd = none → gpu_dispatch_batch enabled cmd = false) ∧
      (∀ rc : Int, cmd = some rc → rc ≠ 0 →
        gpu_dispatch_batch enabled cmd = false) := by
  intro enabled cmd
  cases enabled <;> cases cmd <;> simp [gpu_dispatch_batch]

/-- Witness for C8 at concrete inputs: fallback when disabled, and
    fallback on a nonzero return code. -/
theorem C8_dispatch_ok_iff_zero_rc_witness :
    gpu_dispatch_batch false none = false ∧
    gpu_dispatch_batch true (some (-1)) = false :=
  ⟨(C8_dispatch_ok_iff_zero_rc false none).2.1 (Or.inl rfl),
   (C8_dispatch_ok_iff_zero_rc true (some (-1))).2.2 (-1) rfl (by decide)⟩

/-- Counterexample to claim C5: calibrating launch overhead with
    elapsed = 3/2 and estimated compute = 1 stores 1/2, not
    max(1.0, 3/2 - 1) = 1, so overheads in (0, 1) are not raised
    to 1. -/
theorem C5_counterexample_half_overhead :
    (gpu_calibrate_launch_overhead sFav (3 / 2) 1).calibrated_launch_overhead ≠
      max 1 ((3 / 2 : ℚ) - 1) := by
  norm_num [gpu_calibrate_launch_overhead]

/-- Claim C5 as amended: launch-overhead calibration stores
    elapsed − estimated_compute, replaced by 1.0 only when that
    difference is non-positive (a positive difference below 1.0 is
    kept as is), and marks calibration complete; transfer calibration
    with nonzero bytes and positive elapsed stores elapsed / bytes and
    marks calibration complete. -/
theorem C5_calibration_amended :
    ∀ (s : BridgeState) (elapsed compute : ℚ) (bytes : Nat),
      (0 < elapsed - compute →
        (gpu_calibrate_launch_overhead s elapsed compute).calibrated_launch_overhead =
          elapsed - compute) ∧
      (elapsed - compute ≤ 0 →
        (gpu_calibrate_launch_overhead s elapsed compute).calibrated_launch_overhead = 1) ∧
      ((gpu_calibrate_launch_overhead s elapsed compute).calibration_done = true) ∧
      (bytes ≠ 0 → 0 < elapsed →
        (gpu_calibrate_transfer_cost s bytes elapsed).calibrated_transfer_cost =
            elapsed / (bytes : ℚ) ∧
          (gpu_calibrate_transfer_cost s bytes elapsed).calibration_done = true) := by
  intro s elapsed compute bytes
  refine ⟨fun h => ?_, fun h => ?_, ?_, fun hb he => ?_⟩
  · simp [gpu_calibrate_launch_overhead, not_le.mpr h]
  · simp [gpu_calibrate_launch_overhead, h]
  · simp [gpu_calibrate_launch_overhead]
  · constructor <;> simp [gpu_calibrate_transfer_cost, hb, not_le.mpr he]

/-- Witness for C5 at concrete inputs: elapsed 5, compute 2 stores 3;
    elapsed 1, compute 4 stores 1; 1000 bytes in 10 units stores
    1/100. -/
theorem C5_calibration_amended_witness :
    (gpu_calibrate_launch_overhead sFav 5 2).calibrated_launch_overhead = 3 ∧
    (gpu_calibrate_launch_overhead sFav 1 4).calibrated_launch_overhead = 1 ∧
    (gpu_calibrate_transfer_cost sFav 1000 10).calibrated_transfer_cost =
      1 / 100 := by
  refine ⟨?_, ?_, ?_⟩
  · have h := (C5_calibration_amended sFav 5 2 1000).1 (by norm_num)
    rw [h]; norm_num
  · exact (C5_calibration_amended sFav 1 4 1000).2.1 (by norm_num)
  · have h := ((C5_calibration_amended sFav 10 0 1000).2.2.2 (by norm_num)
      (by norm_num)).1
    rw [h]; norm_num

/-- Counterexample to claim C2: at nrows = 2 the code budgets
    112 bytes for a geometry column while the claimed formula with
    max_align((nrows + 1) × 4) for the offset array gives 120, so the
    sizing pass does not reserve a separate slot for the final offset
    entry. -/
theorem C2_counterexample_two_rows :
    geometry_column_bytes 2 = 112 ∧ geometry_column_bytes_spec 2 = 120 := by
  constructor <;> rfl

/-- Claim C2 as amended: the sizing pass budgets a geometry column as
    the max-aligned validity bitmap plus max_align(nrows × 4) bytes
    for the offset array (not (nrows + 1) × 4) plus
    max_align(nrows × 48) bytes for the payload; the writer
    nevertheless fits, for any nrows ≥ 1 and any number k ≤ nrows of
    serialized rows, because its nrows + 1 offset entries plus
    44 bytes per serialized value stay within the budget. -/
theorem C2_sizing_amended :
    ∀ n k : Nat, 1 ≤ n → k ≤ n →
      (geometry_column_bytes n =
        validity_bitmap_bytes n + MAXALIGN (n * 4) + MAXALIGN (n * 48)) ∧
      validity_bitmap_bytes n + 4 * (n + 1) + 44 * k ≤
        geometry_column_bytes n := by
  intro n k hn hk
  constructor
  · rfl
  · have h4 : n * 4 ≤ MAXALIGN (n * 4) := by
      unfold MAXALIGN; omega
    have h48 : MAXALIGN (n * 48) = n * 48 := by
      unfold MAXALIGN; omega
    unfold geometry_column_bytes XPU_GEOM_POINT_Z_SIZE
    omega

/-- Witness for C2 at nrows = 3 with all three rows serialized. -/
theorem C2_sizing_amended_witness :
    geometry_column_bytes 3 =
      validity_bitmap_bytes 3 + MAXALIGN (3 * 4) + MAXALIGN (3 * 48) ∧
    validity_bitmap_bytes 3 + 4 * (3 + 1) + 44 * 3 ≤
      geometry_column_bytes 3 :=
  C2_sizing_amended 3 3 (by decide) (by decide)

/-- Counterexample to claim C6: with one row and a supplied Arrow
    validity word 3 (bit 1 set beyond nrows = 1), the copied bitmap
    keeps the stray trailing bit, violating the trailing-bits-zero
    invariant. -/
theorem C6_counterexample_verbatim_copy :
    ¬ trailing_bits_zero (copy_validity_bitmap (some [3]) 1) 1 := by
  intro h
  exact absurd (h (by decide)) (by decide)

/-- Claim C6 as amended: when the Arrow array supplies no validity
    buffer the encoder writes all-ones words and masks the final word
    down to nrows mod 64 bits, so the trailing-bits-zero invariant
    holds; when an Arrow validity buffer is supplied its words are
    copied verbatim, so the invariant holds only as far as the source
    already satisfies it. -/
theorem C6_validity_amended :
    ∀ (nrows : Nat) (v : List Nat),
      trailing_bits_zero (copy_validity_bitmap none nrows) nrows ∧
      copy_validity_bitmap (some v) nrows =
        v.take (validity_bitmap_bytes nrows / 8) := by
  intro nrows v
  constructor
  · intro hr
    have hlt : nrows / 64 < validity_bitmap_bytes nrows / 8 := by
      unfold validity_bitmap_bytes MAXALIGN; omega
    simp only [copy_validity_bitmap, if_pos hr]
    rw [List.getD_eq_getElem?_getD]
    rw [List.getElem?_set_self (by simpa using hlt)]
    simp only [Option.getD_some]
    have hrep : (List.replicate (validity_bitmap_bytes nrows / 8)
        ((2 : Nat) ^ 64 - 1)).getD (nrows / 64) 0 = 2 ^ 64 - 1 := by
      rw [List.getD_eq_getElem?_getD, List.getElem?_replicate, if_pos hlt]
      rfl
    rw [hrep]
    have hle : (2 ^ 64 - 1 : Nat) &&& (2 ^ (nrows % 64) - 1) ≤
        2 ^ (nrows % 64) - 1 := Nat.and_le_right
    have hpos : 0 < 2 ^ (nrows % 64) := Nat.pos_pow_of_pos _ (by decide)
    omega
  · rfl

/-- Witness for C6 at nrows = 5 and a supplied one-word bitmap. -/
theorem C6_validity_amended_witness :
    trailing_bits_zero (copy_validity_bitmap none 5) 5 ∧
    copy_validity_bitmap (some [7]) 5 =
      [7].take (validity_bitmap_bytes 5 / 8) :=
  C6_validity_amended 5 [7]

/-- Counterexample to claim C1: the geometry serializer returns 44,
    not 48, for a valid POINT-Z value, and the 3-row scenario with
    values (1,0,0), (0,1,0), (0,0,1) produces the offsets array
    [0, 44, 88, 132], not [0, 48, 96, 144]. -/
theorem C1_counterexample_44_bytes :
    (build_xpu_geometry_header 4978 d1 d0 d0).2 ≠ 48 ∧
    (convert_geometry_column arrowGeom3 3).1 ≠ [0, 48, 96, 144] := by
  constructor <;> decide

/-- Claim C1 as amended: for every valid POINT-Z value the geometry
    serializer writes a per-value block of exactly 44 bytes — 4-byte
    type code 1 for point, 2-byte flags 1 for has-Z, 2 bytes padding,
    4-byte srid, 4-byte nitems = 1, 4-byte rawsize = 24, then the
    three 8-byte doubles in source order — and returns 44 as the
    written length, so the 3-row scenario produces the offsets array
    [0, 44, 88, 132]. -/
theorem C1_geometry_block_layout :
    ∀ (srid : Int) (x y z : List Nat),
      x.length = 8 → y.length = 8 → z.length = 8 →
      (build_xpu_geometry_header srid x y z).2 = 44 ∧
      (build_xpu_geometry_header srid x y z).1.length = 44 ∧
      (build_xpu_geometry_header srid x y z).1.take 4 = le32 1 ∧
      ((build_xpu_geometry_header srid x y z).1.drop 4).take 2 = le16 1 ∧
      ((build_xpu_geometry_header srid x y z).1.drop 6).take 2 = [0, 0] ∧
      ((build_xpu_geometry_header srid x y z).1.drop 8).take 4 = le32 srid ∧
      ((build_xpu_geometry_header srid x y z).1.drop 12).take 4 = le32 1 ∧
      ((build_xpu_geometry_header srid x y z).1.drop 16).take 4 = le32 24 ∧
      ((build_xpu_geometry_header srid x y z).1.drop 20).take 8 = x ∧
      ((build_xpu_geometry_header srid x y z).1.drop 28).take 8 = y ∧
      (build_xpu_geometry_header srid x y z).1.drop 36 = z ∧
      (convert_geometry_column arrowGeom3 3).1 = [0, 44, 88, 132] := by
  intro srid x y z hx hy hz
  refine ⟨rfl, ?_, rfl, rfl, rfl, rfl, rfl, rfl, ?_, ?_, ?_, by decide⟩
  · simp [build_xpu_geometry_header, le32, le16, hx, hy, hz]
  · show (((x ++ y) ++ z).take 8) = x
    rw [List.append_assoc]
    exact List.take_left' hx
  · show ((((x ++ y) ++ z).drop 8).take 8) = y
    rw [List.append_assoc, List.drop_left' hx]
    exact List.take_left' hy
  · show (((x ++ y) ++ z).drop 16) = z
    rw [List.append_assoc, show (16 : Nat) = 8 + 8 from rfl,
      ← List.drop_drop, List.drop_left' hx, List.drop_left' hy]

/-- Witness for C1 at the concrete 3-row scenario: block length and
    return value 44, the x coordinate of row one preserved
    bit-for-bit, and the offsets array. -/
theorem C1_geometry_block_layout_witness :
    (build_xpu_geometry_header 4978 d1 d0 d0).2 = 44 ∧
    ((build_xpu_geometry_header 4978 d1 d0 d0).1.drop 20).take 8 = d1 ∧
    (convert_geometry_column arrowGeom3 3).1 = [0, 44, 88, 132] := by
  obtain ⟨h1, -, -, -, -, -, -, -, hx, -, -, hoffs⟩ :=
    C1_geometry_block_layout 4978 d1 d0 d0 (by decide) (by decide) (by decide)
  exact ⟨h1, hx, hoffs⟩

/-- The argument-list loop of the eligibility analyzer succeeds iff
    every element is eligible. -/
theorem gpu_expr_list_is_eligible_iff (enabled : Bool)
    (lookup : Option (Nat → Int)) :
    ∀ l : List PgExpr,
      gpu_expr_list_is_eligible enabled lookup l = true ↔
        ∀ e ∈ l, gpu_expr_is_eligible enabled lookup e = true := by
  intro l
  induction l with
  | nil => simp [gpu_expr_list_is_eligible]
  | cons e es ih =>
      cases heq : gpu_expr_is_eligible enabled lookup e with
      | false => simp [gpu_expr_list_is_eligible, heq]
      | true => simp [gpu_expr_list_is_eligible, heq, ih]

/-- Claim C3: eligibility is decided recursively — a constant or
    column reference is eligible; a function/operator application is
    eligible iff the registry returns a positive opcode for its
    function identity and every argument is recursively eligible; an
    aggregate node is checked only through its arguments and optional
    filter; any other node is ineligible; and the batch-level check
    returns true iff the bridge is enabled, the expression list is
    non-empty, and every expression in it is eligible. -/
theorem C3_eligibility_characterization :
    ∀ (lk : Nat → Int) (fid : Nat) (args aargs : List PgExpr)
      (filt : Option PgExpr) (enabled : Bool)
      (lookup : Option (Nat → Int)) (exprs : List PgExpr),
      gpu_expr_is_eligible true (some lk) .const = true ∧
      gpu_expr_is_eligible true (some lk) .varRef = true ∧
      (gpu_expr_is_eligible true (some lk) (.funcExpr fid args) = true ↔
        0 < lk fid ∧
          ∀ a ∈ args, gpu_expr_is_eligible true (some lk) a = true) ∧
      (gpu_expr_is_eligible true (some lk) (.opExpr fid args) = true ↔
        0 < lk fid ∧
          ∀ a ∈ args, gpu_expr_is_eligible true (some lk) a = true) ∧
      (gpu_expr_is_eligible true (some lk) (.aggref aargs filt) = true ↔
        (∀ a ∈ aargs, gpu_expr_is_eligible true (some lk) a = true) ∧
          ∀ f, filt = some f → gpu_expr_is_eligible true (some lk) f = true) ∧
      gpu_expr_is_eligible true (some lk) .other = false ∧
      (gpu_check_eligibility enabled lookup exprs = true ↔
        enabled = true ∧ exprs ≠ [] ∧
          ∀ e ∈ exprs, gpu_expr_is_eligible enabled lookup e = true) := by
  intro lk fid args aargs filt enabled lookup exprs
  refine ⟨rfl, rfl, ?_, ?_, ?_, rfl, ?_⟩
  · by_cases h : lk fid ≤ 0
    · simp [gpu_expr_is_eligible, h]
    · simp [gpu_expr_is_eligible, h, gpu_expr_list_is_eligible_iff]
      exact fun _ => not_le.mp h
  · by_cases h : lk fid ≤ 0
    · simp [gpu_expr_is_eligible, h]
    · simp [gpu_expr_is_eligible, h, gpu_expr_list_is_eligible_iff]
      exact fun _ => not_le.mp h
  · cases hargs : gpu_expr_list_is_eligible true (some lk) aargs with
    | false =>
        have hforall :
            ¬ ∀ a ∈ aargs, gpu_expr_is_eligible true (some lk) a = true := by
          rw [← gpu_expr_list_is_eligible_iff]
          simp [hargs]
        cases filt <;> simp [gpu_expr_is_eligible, hargs, hforall]
    | true =>
        have hforall :
            ∀ a ∈ aargs, gpu_expr_is_eligible true (some lk) a = true :=
          (gpu_expr_list_is_eligible_iff _ _ _).mp hargs
        cases filt with
        | none =>
            simp [gpu_expr_is_eligible, hargs]
            exact hforall
        | some f =>
            simp [gpu_expr_is_eligible, hargs]
            exact fun _ => hforall
  · cases enabled with
    | false => simp [gpu_check_eligibility]
    | true =>
        cases exprs with
        | nil => simp [gpu_check_eligibility]
        | cons e es =>
            simp [gpu_check_eligibility, gpu_expr_list_is_eligible_iff]

/-- no_app_outside_filter_list holds iff it holds pointwise. -/
theorem no_app_outside_filter_list_iff :
    ∀ l : List PgExpr,
      no_app_outside_filter_list l = true ↔
        ∀ x ∈ l, no_app_outside_filter x = true := by
  intro l
  induction l with
  | nil => simp [no_app_outside_filter_list]
  | cons e es ih => simp [no_app_outside_filter_list, ih]

mutual

/-- An expression all of whose applications sit inside filter clauses
    contributes 0 to the opcode-cost sum. -/
theorem gpu_sum_zero_of_no_app (enabled : Bool) (lookup : Option (Nat → Int))
    (ocost : Option (Int → ℚ)) :
    ∀ e : PgExpr, no_app_outside_filter e = true →
      gpu_sum_opcode_costs enabled lookup ocost e = 0
  | .const, _ => by simp [gpu_sum_opcode_costs]
  | .varRef, _ => by simp [gpu_sum_opcode_costs]
  | .funcExpr f args, h => by simp [no_app_outside_filter] at h
  | .opExpr f args, h => by simp [no_app_outside_filter] at h
  | .aggref args filt, h => by
      have hl := gpu_sum_list_zero_of_no_app enabled lookup ocost args
        (by simpa [no_app_outside_filter] using h)
      simp [gpu_sum_opcode_costs, hl]
  | .other, _ => by simp [gpu_sum_opcode_costs]

/-- List version of gpu_sum_zero_of_no_app. -/
theorem gpu_sum_list_zero_of_no_app (enabled : Bool)
    (lookup : Option (Nat → Int)) (ocost : Option (Int → ℚ)) :
    ∀ l : List PgExpr, no_app_outside_filter_list l = true →
      gpu_sum_opcode_costs_list enabled lookup ocost l = 0
  | [], _ => by simp [gpu_sum_opcode_costs_list]
  | e :: es, h => by
      have hpair : no_app_outside_filter e = true ∧
          no_app_outside_filter_list es = true := by
        simpa [no_app_outside_filter_list] using h
      have h1 := gpu_sum_zero_of_no_app enabled lookup ocost e hpair.1
      have h2 := gpu_sum_list_zero_of_no_app enabled lookup ocost es hpair.2
      simp [gpu_sum_opcode_costs_list, h1, h2]

end

/-- Claim C10: the opcode-cost sum never descends into an aggregate
    filter clause while eligibility checking does; hence a batch whose
    only function applications occur inside aggregate filter clauses
    has opcode-cost sum 0 and an invalid cost estimate even though the
    eligibility check can accept the same batch. -/
theorem C10_filter_cost_asymmetry :
    ∀ (enabled : Bool) (lookup : Option (Nat → Int)) (oc : Option (Int → ℚ))
      (args : List PgExpr) (filt : Option PgExpr) (e : PgExpr)
      (s : BridgeState) (exprs : List PgExpr) (nrows row_width : Int),
      (gpu_sum_opcode_costs enabled lookup oc (.aggref args filt) =
        gpu_sum_opcode_costs enabled lookup oc (.aggref args none)) ∧
      (no_app_outside_filter e = true →
        gpu_sum_opcode_costs enabled lookup oc e = 0) ∧
      ((∀ x ∈ exprs, no_app_outside_filter x = true) →
        (gpu_estimate_cost s exprs nrows row_width).is_valid = false) ∧
      (gpu_check_eligibility true (some fun _ => 1) filterOnlyBatch = true ∧
        (∀ x ∈ filterOnlyBatch, no_app_outside_filter x = true) ∧
        (gpu_estimate_cost sFav filterOnlyBatch 5000 64).is_valid = false) := by
  intro enabled lookup oc args filt e s exprs nrows row_width
  refine ⟨?_, gpu_sum_zero_of_no_app enabled lookup oc e, ?_, ?_, ?_, ?_⟩
  · simp [gpu_sum_opcode_costs]
  · intro hx
    have hz := gpu_sum_list_zero_of_no_app s.gpu_bridge_enabled
      s.strom_api.device_func_lookup s.strom_api.opcode_cost exprs
      ((no_app_outside_filter_list_iff exprs).mpr hx)
    simp [gpu_estimate_cost, hz, zeroEstimate]
  · simp [gpu_check_eligibility, filterOnlyBatch, gpu_expr_list_is_eligible,
      gpu_expr_is_eligible]
  · simp [filterOnlyBatch, no_app_outside_filter, no_app_outside_filter_list]
  · have hz := gpu_sum_list_zero_of_no_app sFav.gpu_bridge_enabled
      sFav.strom_api.device_func_lookup sFav.strom_api.opcode_cost
      filterOnlyBatch
      (by simp [filterOnlyBatch, no_app_outside_filter_list,
        no_app_outside_filter])
    simp [gpu_estimate_cost, hz, zeroEstimate]

/-- Witness for C10: the constant expression contributes 0, and the
    concrete filter-only batch gets an invalid estimate at 5000 rows
    while being eligible. -/
theorem C10_filter_cost_asymmetry_witness :
    gpu_sum_opcode_costs true (some fun _ => 1) (some fun _ => 1)
        PgExpr.const = 0 ∧
      gpu_check_eligibility true (some fun _ => 1) filterOnlyBatch = true ∧
      (gpu_estimate_cost sFav filterOnlyBatch 5000 64).is_valid = false := by
  have h := C10_filter_cost_asymmetry true (some fun _ => 1)
    (some fun _ => 1) [] none PgExpr.const sFav filterOnlyBatch 5000 64
  exact ⟨h.2.1 (by simp [no_app_outside_filter]), h.2.2.2.1, h.2.2.2.2.2⟩

mutual

/-- Under a registry whose cost weights are non-negative, the
    opcode-cost sum of any expression is non-negative. -/
theorem gpu_sum_nonneg (enabled : Bool) (lookup : Option (Nat → Int))
    (ocost : Option (Int → ℚ))
    (hoc : ∀ oc, ocost = some oc → ∀ o, 0 ≤ oc o) :
    ∀ e : PgExpr, 0 ≤ gpu_sum_opcode_costs enabled lookup ocost e
  | .const => by simp [gpu_sum_opcode_costs]
  | .varRef => by simp [gpu_sum_opcode_costs]
  | .funcExpr f args => by
      rcases hoo : ocost with _ | oc
      · simp [gpu_sum_opcode_costs]
      · rcases lookup with _ | lk
        · simp [gpu_sum_opcode_costs]
        · cases enabled with
          | false => simp [gpu_sum_opcode_costs]
          | true =>
              have hl := gpu_sum_list_nonneg true (some lk) ocost hoc args
              rw [hoo] at hl
              have hop : 0 ≤ (if 0 < lk f then oc (lk f) else 0) := by
                by_cases h : 0 < lk f <;> simp [h, hoc oc hoo (lk f)]
              simp only [gpu_sum_opcode_costs, Bool.not_true,
                Option.isNone_some, Bool.or_self, Bool.or_false,
                Bool.false_or, if_false]
              exact add_nonneg hop hl
  | .opExpr f args => by
      rcases hoo : ocost with _ | oc
      · simp [gpu_sum_opcode_costs]
      · rcases lookup with _ | lk
        · simp [gpu_sum_opcode_costs]
        · cases enabled with
          | false => simp [gpu_sum_opcode_costs]
          | true =>
              have hl := gpu_sum_list_nonneg true (some lk) ocost hoc args
              rw [hoo] at hl
              have hop : 0 ≤ (if 0 < lk f then oc (lk f) else 0) := by
                by_cases h : 0 < lk f <;> simp [h, hoc oc hoo (lk f)]
              simp only [gpu_sum_opcode_costs, Bool.not_true,
                Option.isNone_some, Bool.or_self, Bool.or_false,
                Bool.false_or, if_false]
              exact add_nonneg hop hl
  | .aggref args filt => by
      have hl := gpu_sum_list_nonneg enabled lookup ocost hoc args
      by_cases h : (!enabled || lookup.isNone || ocost.isNone) = true
      · simp [gpu_sum_opcode_costs, h]
      · simp [gpu_sum_opcode_costs, h, hl]
  | .other => by simp [gpu_sum_opcode_costs]

/-- List version of gpu_sum_nonneg. -/
theorem gpu_sum_list_nonneg (enabled : Bool) (lookup : Option (Nat → Int))
    (ocost : Option (Int → ℚ))
    (hoc : ∀ oc, ocost = some oc → ∀ o, 0 ≤ oc o) :
    ∀ l : List PgExpr, 0 ≤ gpu_sum_opcode_costs_list enabled lookup ocost l
  | [] => by simp [gpu_sum_opcode_costs_list]
  | e :: es => by
      have h1 := gpu_sum_nonneg enabled lookup ocost hoc e
      have h2 := gpu_sum_list_nonneg enabled lookup ocost hoc es
      simp only [gpu_sum_opcode_costs_list]
      exact add_nonneg h1 h2

end

/-- gpu_estimate_cost with its local bindings expanded, for case
    splitting in the proofs below. -/
theorem gpu_estimate_cost_unfold :
    ∀ (s : BridgeState) (exprs : List PgExpr) (nrows row_width : Int),
      gpu_estimate_cost s exprs nrows row_width =
        if !s.gpu_bridge_enabled || decide (nrows ≤ 0) then zeroEstimate
        else if decide (0 < s.gpu_min_batch_rows) &&
            decide (nrows < s.gpu_min_batch_rows) then zeroEstimate
        else if gpu_sum_opcode_costs_list s.gpu_bridge_enabled
            s.strom_api.device_func_lookup s.strom_api.opcode_cost exprs ≤ 0
          then zeroEstimate
        else
          { total_cost := (transfer_bytes_c nrows row_width : ℚ) *
                effective_transfer_cost s + effective_launch_overhead s +
                (nrows : ℚ) * gpu_sum_opcode_costs_list s.gpu_bridge_enabled
                  s.strom_api.device_func_lookup s.strom_api.opcode_cost exprs /
                  (effective_gpu_parallelism s : ℚ),
            transfer_cost := (transfer_bytes_c nrows row_width : ℚ) *
                effective_transfer_cost s,
            launch_cost := effective_launch_overhead s,
            compute_cost := (nrows : ℚ) * gpu_sum_opcode_costs_list
                s.gpu_bridge_enabled s.strom_api.device_func_lookup
                s.strom_api.opcode_cost exprs /
                (effective_gpu_parallelism s : ℚ),
            is_valid := true } := by
  intro s exprs nrows row_width
  rfl

/-- Claim C4: gpu_estimate_cost returns an invalid estimate exactly
    when a short-circuit holds — bridge disabled, nrows ≤ 0,
    min_batch_rows positive with nrows below it, or opcode-cost sum
    zero (given the registry contract of non-negative cost weights);
    with min_batch_rows = 5000 and otherwise favorable inputs the
    estimate is invalid at 4999 rows and valid at 5000. -/
theorem C4_estimate_invalid_iff :
    ∀ (s : BridgeState) (exprs : List PgExpr) (nrows row_width : Int),
      (∀ oc, s.strom_api.opcode_cost = some oc → ∀ o, 0 ≤ oc o) →
      ((gpu_estimate_cost s exprs nrows row_width).is_valid = false ↔
        s.gpu_bridge_enabled = false ∨ nrows ≤ 0 ∨
          (0 < s.gpu_min_batch_rows ∧ nrows < s.gpu_min_batch_rows) ∨
          gpu_sum_opcode_costs_list s.gpu_bridge_enabled
            s.strom_api.device_func_lookup s.strom_api.opcode_cost exprs
            = 0) ∧
      (gpu_estimate_cost sFav favExprs 4999 64).is_valid = false ∧
      (gpu_estimate_cost sFav favExprs 5000 64).is_valid = true := by
  intro s exprs nrows row_width hoc
  have hsum : 0 ≤ gpu_sum_opcode_costs_list s.gpu_bridge_enabled
      s.strom_api.device_func_lookup s.strom_api.opcode_cost exprs :=
    gpu_sum_list_nonneg _ _ _ hoc exprs
  refine ⟨?_, ?_, ?_⟩
  · rw [gpu_estimate_cost_unfold]
    split_ifs with h1 h2 h3
    · refine iff_of_true rfl ?_
      simp only [Bool.or_eq_true, Bool.not_eq_true', decide_eq_true_eq] at h1
      rcases h1 with h1 | h1
      · exact Or.inl h1
      · exact Or.inr (Or.inl h1)
    · refine iff_of_true rfl ?_
      simp only [Bool.and_eq_true, decide_eq_true_eq] at h2
      exact Or.inr (Or.inr (Or.inl h2))
    · refine iff_of_true rfl ?_
      exact Or.inr (Or.inr (Or.inr (le_antisymm h3 hsum)))
    · simp only [Bool.or_eq_true, Bool.not_eq_true', decide_eq_true_eq,
        not_or] at h1
      simp only [Bool.and_eq_true, decide_eq_true_eq, not_and, not_lt] at h2
      simp only [not_le] at h3
      refine iff_of_false (by simp) ?_
      push_neg
      exact ⟨h1.1, not_le.mp h1.2, fun hmin => h2 hmin, ne_of_gt h3⟩
  · norm_num [gpu_estimate_cost, sFav, zeroEstimate]
  · norm_num [gpu_estimate_cost, sFav, apiFull, favExprs,
      gpu_sum_opcode_costs_list, gpu_sum_opcode_costs]

/-- Witness for C4: under the concrete favorable state the estimate is
    invalid at 4999 rows and valid at 5000. -/
theorem C4_estimate_invalid_iff_witness :
    (gpu_estimate_cost sFav favExprs 4999 64).is_valid = false ∧
    (gpu_estimate_cost sFav favExprs 5000 64).is_valid = true := by
  have h := C4_estimate_invalid_iff sFav favExprs 5000 64
    (by intro oc hc o; simp [sFav, apiFull] at hc; simp [← hc])
  exact ⟨h.2.1, h.2.2⟩

/-- The effective transfer cost is strictly positive on every branch
    of its resolution order. -/
theorem effective_transfer_cost_pos :
    ∀ s : BridgeState, 0 < effective_transfer_cost s := by
  intro s
  unfold effective_transfer_cost
  split_ifs with h1 h2
  · exact h1
  · simp only [Bool.and_eq_true, decide_eq_true_eq] at h2
    exact h2.2
  · norm_num [DEFAULT_TRANSFER_COST_PER_BYTE]

/-- The effective GPU parallelism is strictly positive on every
    branch. -/
theorem effective_gpu_parallelism_pos :
    ∀ s : BridgeState, 0 < effective_gpu_parallelism s := by
  intro s
  unfold effective_gpu_parallelism
  cases he : s.gpu_bridge_enabled with
  | false => cases s.strom_api.gpu_parallelism <;>
      norm_num [DEFAULT_GPU_PARALLELISM]
  | true =>
      cases s.strom_api.gpu_parallelism with
      | none => norm_num [DEFAULT_GPU_PARALLELISM]
      | some p =>
          by_cases hp : 0 < p
          · simp [hp]
          · simp [hp]
            norm_num [DEFAULT_GPU_PARALLELISM]

/-- Within the 32-bit int ranges the size_t computation of the
    transfer byte count incurs no wraparound. -/
theorem transfer_bytes_c_eq :
    ∀ (nrows row_width : Int), 0 < nrows → nrows ≤ 2 ^ 31 - 1 →
      0 ≤ row_width → row_width ≤ 2 ^ 31 - 1 →
      transfer_bytes_c nrows row_width = nrows.toNat * row_width.toNat * 2 := by
  intro nrows row_width hn0 hn hw0 hw
  unfold transfer_bytes_c
  have hmod : row_width % (2 ^ 64 : Int) = row_width :=
    Int.emod_eq_of_lt hw0 (by omega)
  rw [hmod]
  have h1 : nrows.toNat ≤ 2 ^ 31 - 1 := by omega
  have h2 : row_width.toNat ≤ 2 ^ 31 - 1 := by omega
  have hx : nrows.toNat * row_width.toNat ≤ (2 ^ 31 - 1) * (2 ^ 31 - 1) :=
    Nat.mul_le_mul h1 h2
  rw [Nat.mod_eq_of_lt (by omega), Nat.mod_eq_of_lt (by omega)]

/-- Joint monotonicity of the total cost in row count and row width,
    within int range and above a positive min-batch threshold. -/
theorem gpu_total_cost_mono :
    ∀ (s : BridgeState) (exprs : List PgExpr) (na nb wa wb : Int),
      s.gpu_bridge_enabled = true →
      0 < s.gpu_min_batch_rows →
      s.gpu_min_batch_rows ≤ na → na ≤ nb → nb ≤ 2 ^ 31 - 1 →
      0 ≤ wa → wa ≤ wb → wb ≤ 2 ^ 31 - 1 →
      (gpu_estimate_cost s exprs na wa).total_cost ≤
        (gpu_estimate_cost s exprs nb wb).total_cost := by
  intro s exprs na nb wa wb he hmin hna hnab hnb hwa hwab hwb
  rw [gpu_estimate_cost_unfold, gpu_estimate_cost_unfold]
  have hga : (!s.gpu_bridge_enabled || decide (na ≤ 0)) = false := by
    simp [he]; omega
  have hgb : (!s.gpu_bridge_enabled || decide (nb ≤ 0)) = false := by
    simp [he]; omega
  have hma : (decide (0 < s.gpu_min_batch_rows) &&
      decide (na < s.gpu_min_batch_rows)) = false := by
    simp; omega
  have hmb : (decide (0 < s.gpu_min_batch_rows) &&
      decide (nb < s.gpu_min_batch_rows)) = false := by
    simp; omega
  rw [hga, hgb, hma, hmb]
  simp only [Bool.false_eq_true, if_false]
  by_cases hS : gpu_sum_opcode_costs_list s.gpu_bridge_enabled
      s.strom_api.device_func_lookup s.strom_api.opcode_cost exprs ≤ 0
  · rw [if_pos hS, if_pos hS]
  · rw [if_neg hS, if_neg hS]
    have hSpos := not_le.mp hS
    have hT := effective_transfer_cost_pos s
    have hP : (0 : ℚ) < (effective_gpu_parallelism s : ℚ) := by
      exact_mod_cast effective_gpu_parallelism_pos s
    have htb : (transfer_bytes_c na wa : ℚ) ≤ (transfer_bytes_c nb wb : ℚ) := by
      rw [transfer_bytes_c_eq na wa (by omega) (by omega) hwa (by omega),
        transfer_bytes_c_eq nb wb (by omega) (by omega) (by omega) hwb]
      have h : na.toNat * wa.toNat * 2 ≤ nb.toNat * wb.toNat * 2 :=
        Nat.mul_le_mul_right 2 (Nat.mul_le_mul (by omega) (by omega))
      exact_mod_cast h
    have hcomp : (na : ℚ) * gpu_sum_opcode_costs_list s.gpu_bridge_enabled
          s.strom_api.device_func_lookup s.strom_api.opcode_cost exprs /
          (effective_gpu_parallelism s : ℚ) ≤
        (nb : ℚ) * gpu_sum_opcode_costs_list s.gpu_bridge_enabled
          s.strom_api.device_func_lookup s.strom_api.opcode_cost exprs /
          (effective_gpu_parallelism s : ℚ) := by
      apply (div_le_div_iff_of_pos_right hP).mpr
      exact mul_le_mul_of_nonneg_right (by exact_mod_cast hnab) hSpos.le
    exact add_le_add (add_le_add
      (mul_le_mul_of_nonneg_right htb hT.le) le_rfl) hcomp

/-- Claim C7: with the bridge enabled, a positive min_batch_rows and
    fixed tunables and registry, the total estimated cost is
    non-decreasing in nrows (at or above the threshold) and
    non-decreasing in a non-negative row_width, and estimates below
    the threshold are invalid. -/
theorem C7_cost_monotonicity :
    ∀ (s : BridgeState) (exprs : List PgExpr) (n1 n2 n w w1 w2 : Int),
      s.gpu_bridge_enabled = true →
      0 < s.gpu_min_batch_rows →
      (s.gpu_min_batch_rows ≤ n1 → n1 ≤ n2 → n2 ≤ 2 ^ 31 - 1 →
        0 ≤ w → w ≤ 2 ^ 31 - 1 →
        (gpu_estimate_cost s exprs n1 w).total_cost ≤
          (gpu_estimate_cost s exprs n2 w).total_cost) ∧
      (s.gpu_min_batch_rows ≤ n → n ≤ 2 ^ 31 - 1 →
        0 ≤ w1 → w1 ≤ w2 → w2 ≤ 2 ^ 31 - 1 →
        (gpu_estimate_cost s exprs n w1).total_cost ≤
          (gpu_estimate_cost s exprs n w2).total_cost) ∧
      (n < s.gpu_min_batch_rows →
        (gpu_estimate_cost s exprs n w).is_valid = false) := by
  intro s exprs n1 n2 n w w1 w2 he hmin
  refine ⟨?_, ?_, ?_⟩
  · intro h1 h2 h3 h4 h5
    exact gpu_total_cost_mono s exprs n1 n2 w w he hmin h1 h2 h3 h4 le_rfl h5
  · intro h1 h2 h3 h4 h5
    exact gpu_total_cost_mono s exprs n n w1 w2 he hmin h1 le_rfl h2 h3 h4 h5
  · intro hlt
    rw [gpu_estimate_cost_unfold]
    rcases le_or_lt n 0 with h0 | h0
    · simp [he, h0, zeroEstimate]
    · have hga : (!s.gpu_bridge_enabled || decide (n ≤ 0)) = false := by
        simp [he]; omega
      have hmt : (decide (0 < s.gpu_min_batch_rows) &&
          decide (n < s.gpu_min_batch_rows)) = true := by
        simp [hmin, hlt]
      rw [hga, hmt]
      simp [zeroEstimate]

/-- Witness for C7 at concrete inputs under the favorable state. -/
theorem C7_cost_monotonicity_witness :
    (gpu_estimate_cost sFav favExprs 5000 64).total_cost ≤
      (gpu_estimate_cost sFav favExprs 6000 64).total_cost ∧
    (gpu_estimate_cost sFav favExprs 5000 64).total_cost ≤
      (gpu_estimate_cost sFav favExprs 5000 128).total_cost ∧
    (gpu_estimate_cost sFav favExprs 4999 64).is_valid = false := by
  have h := C7_cost_monotonicity sFav favExprs 5000 6000 4999 64 64 128
    rfl (by norm_num [sFav])
  refine ⟨?_, ?_, h.2.2 (by norm_num [sFav])⟩
  · exact h.1 (by norm_num [sFav]) (by norm_num) (by norm_num) (by norm_num)
      (by norm_num)
  · have h2 := C7_cost_monotonicity sFav favExprs 5000 6000 5000 64 64 128
      rfl (by norm_num [sFav])
    exact h2.2.1 (by norm_num [sFav]) (by norm_num) (by norm_num)
      (by norm_num) (by norm_num)

/-- Reading one Datum from an encoded word recovers the value. -/
theorem read_le64_le64 :
    ∀ (v : Nat) (rest : List Nat), v < 2 ^ 64 →
      read_le64 (le64 v ++ rest) = v := by
  intro v rest hv
  simp only [read_le64, le64, List.cons_append, List.nil_append,
    List.getD_cons_zero, List.getD_cons_succ]
  omega

/-- The byte length of an encoded Datum array. -/
theorem le64_flatten_length :
    ∀ vals : List Nat, ((vals.map le64).flatten).length = 8 * vals.length := by
  intro vals
  induction vals with
  | nil => simp
  | cons v vs ih =>
      simp [le64, ih]
      omega

/-- The value-copy loop recovers an encoded Datum array. -/
theorem read_words_encode :
    ∀ (vals : List Nat) (tail : List Nat), (∀ v ∈ vals, v < 2 ^ 64) →
      read_words ((vals.map le64).flatten ++ tail) vals.length = vals := by
  intro vals
  induction vals with
  | nil => intro tail _; simp [read_words]
  | cons v vs ih =>
      intro tail hb
      have hjoin : (((v :: vs).map le64).flatten ++ tail) =
          le64 v ++ ((vs.map le64).flatten ++ tail) := by
        simp
      rw [List.length_cons, read_words, hjoin,
        read_le64_le64 v _ (hb v (by simp)),
        List.drop_left' (by simp [le64]),
        ih _ (fun x hx => hb x (by simp [hx]))]

/-- The null-flag copy loop recovers an encoded bool array. -/
theorem read_flags_encode :
    ∀ (flags : List Bool) (tail : List Nat),
      read_flags (flags.map boolByte ++ tail) flags.length = flags := by
  intro flags
  induction flags with
  | nil => intro tail; simp [read_flags]
  | cons b bs ih =>
      intro tail
      rw [List.length_cons, read_flags]
      have hdrop : ((b :: bs).map boolByte ++ tail).drop 1 =
          bs.map boolByte ++ tail := by
        simp
      rw [hdrop, ih]
      cases b <;> simp [boolByte]

/-- Claim C9: the result decoder, given a buffer shorter than
    n_aggs × (sizeof(Datum) + sizeof(bool)), zeroes every output value
    and sets every null flag; otherwise it copies the n_aggs-element
    value array and then the n_aggs-element null-flag array out
    unchanged. -/
theorem C9_result_decoder :
    ∀ (vals : List Nat) (flags : List Bool) (rest buf : List Nat)
      (n len : Nat),
      (len < n * (8 + 1) →
        kds_result_to_partial_agg (some buf) len n =
          (List.replicate n 0, List.replicate n true)) ∧
      (vals.length = n → flags.length = n → (∀ v ∈ vals, v < 2 ^ 64) →
        n * (8 + 1) ≤ len →
        kds_result_to_partial_agg
          (some ((vals.map le64).flatten ++ flags.map boolByte ++ rest)) len n =
          (vals, flags)) := by
  intro vals flags rest buf n len
  constructor
  · intro hshort
    simp [kds_result_to_partial_agg, hshort]
  · intro hv hf hb hlen
    have hcond : ((some ((vals.map le64).flatten ++ flags.map boolByte ++
        rest)).isNone || decide (len < n * (8 + 1))) = false := by
      simp [not_lt.mpr hlen]
    rw [kds_result_to_partial_agg, hcond]
    simp only [Bool.false_eq_true, if_false]
    have hassoc : ((vals.map le64).flatten ++ flags.map boolByte ++ rest) =
        ((vals.map le64).flatten ++ (flags.map boolByte ++ rest)) := by
      rw [List.append_assoc]
    rw [hassoc]
    have hwords : read_words ((vals.map le64).flatten ++
        (flags.map boolByte ++ rest)) n = vals := by
      rw [← hv]
      exact read_words_encode vals _ hb
    have hdrop : ((vals.map le64).flatten ++
        (flags.map boolByte ++ rest)).drop (8 * n) =
        flags.map boolByte ++ rest := by
      rw [← hv, ← le64_flatten_length vals]
      exact List.drop_left _ _
    have hflags : read_flags (((vals.map le64).flatten ++
        (flags.map boolByte ++ rest)).drop (8 * n)) n = flags := by
      rw [hdrop, ← hf]
      exact read_flags_encode flags rest
    rw [hwords, hflags]

/-- Witness for C9: a short buffer yields all-null outputs, and a
    well-formed two-aggregate buffer decodes to its arrays. -/
theorem C9_result_decoder_witness :
    kds_result_to_partial_agg (some [1, 2, 3]) 3 2 =
      ([0, 0], [true, true]) ∧
    kds_result_to_partial_agg
      (some (([5, 7].map le64).flatten ++ [true, false].map boolByte ++ [])) 18 2 =
      ([5, 7], [true, false]) := by
  have h := C9_result_decoder [5, 7] [true, false] [] [1, 2, 3] 2 3
  have h18 := C9_result_decoder [5, 7] [true, false] [] [1, 2, 3] 2 18
  exact ⟨h.1 (by norm_num), h18.2 rfl rfl (by decide) (by norm_num)⟩

/-- Witness for C3: under an all-registered registry, the favorable
    single-application batch is eligible at batch level. -/
theorem C3_eligibility_characterization_witness :
    gpu_check_eligibility true (some fun _ => 1) favExprs = true := by
  have h := (C3_eligibility_characterization (fun _ => 1) 1 [] [] none true
    (some fun _ => 1) favExprs).2.2.2.2.2.2
  apply h.mpr
  refine ⟨rfl, by simp [favExprs], ?_⟩
  intro e he
  simp only [favExprs, List.mem_singleton] at he
  subst he
  simp [gpu_expr_is_eligible, gpu_expr_list_is_eligible]
